import Mathlib

/-!
Shallow embedding of the singleton consensus module
(`src/consensus/src/lib.rs` of `substrate-consensus-barcamp`).

Bytes are modelled as `List Nat`; sr25519 signatures are fixed 64-byte
values and block hashes fixed 32-byte values, so `Sig` and `Hash` are
length-constrained byte lists.  Cryptography is kept abstract: the
embedded functions take the signing function `sign : Hash → Sig` and the
verification function `verify : Hash → Sig → Bool` (one per authority,
standing for `sr25519::Pair::sign` / `RuntimePublic::verify` under the
configured public key) as parameters, and likewise the header hash
function `hashHeader : Header → Hash` (standing for `Header::hash`).

SCALE codec facts used: `sr25519::Signature` encodes as its 64 raw
bytes and decodes by reading exactly 64 bytes from the input, ignoring
any remainder; a 32-byte hash likewise; a struct decodes its fields in
order.  `SingletonSeal` and `SingletonFinalityJustification` are
newtypes over a signature, so their codec is the signature codec.
-/

/-- Length in bytes of an sr25519 signature. -/
def SIG_LEN : Nat := 64

/-- Length in bytes of a block hash. -/
def HASH_LEN : Nat := 32

/-- An sr25519 signature: exactly 64 bytes. -/
abbrev Sig : Type := {l : List Nat // l.length = SIG_LEN}

/-- A block hash: exactly 32 bytes. -/
abbrev Hash : Type := {l : List Nat // l.length = HASH_LEN}

/-- The engine tag `SINGLETON_ENGINE_ID = *b"SGTN"` (4 bytes). -/
def SINGLETON_ENGINE_ID : List Nat := [0x53, 0x47, 0x54, 0x4E]

/-- SCALE encoding of a `SingletonSeal` / `SingletonFinalityJustification`
(newtypes over `sr25519::Signature`): the signature's 64 raw bytes. -/
def encodeSig (s : Sig) : List Nat := s.val

/-- SCALE decoding of a signature newtype: read exactly 64 bytes,
fail when fewer are available, ignore any trailing bytes. -/
def decodeSig (b : List Nat) : Option Sig :=
  if h : SIG_LEN ≤ b.length then
    some ⟨b.take SIG_LEN, by rw [List.length_take]; exact Nat.min_eq_left h⟩
  else
    none

/-- SCALE decoding of a 32-byte hash field: read exactly 32 bytes. -/
def decodeHash (b : List Nat) : Option Hash :=
  if h : HASH_LEN ≤ b.length then
    some ⟨b.take HASH_LEN, by rw [List.length_take]; exact Nat.min_eq_left h⟩
  else
    none

/-- A header digest item.  Only the `Seal` constructor matters to this
protocol; every other digest-item variant is collapsed into `other`. -/
inductive DigestItem where
  | seal (id : List Nat) (payload : List Nat)
  | other (payload : List Nat)
deriving DecidableEq, Repr

/-- A block header: its digest log plus an opaque `base` standing for all
remaining header fields (parent hash, number, state root, ...). -/
structure Header where
  base : Nat
  digest : List DigestItem
deriving DecidableEq, Repr

/-- Fork-choice strategies; the module only ever uses `LongestChain`. -/
inductive ForkChoiceStrategy where
  | LongestChain
deriving DecidableEq, Repr

/-- Origin of an import request. -/
inductive BlockOrigin where
  | Own
  | NetworkBroadcast
  | NetworkInitialSync
  | File
deriving DecidableEq, Repr

/-- The fields of `BlockImportParams` that the module reads or writes. -/
structure BlockImportParams where
  origin : BlockOrigin
  header : Header
  justification : Option (List Nat)
  post_digests : List DigestItem
  body : Option (List (List Nat))
  storage_changes : Option Unit
  finalized : Bool
  post_hash : Option Hash
  fork_choice : Option ForkChoiceStrategy
deriving DecidableEq, Repr

/-- Embeds `BlockImportParams::new(origin, header)`: every other field starts
empty / false. -/
def BlockImportParams.new (origin : BlockOrigin) (header : Header) :
    BlockImportParams :=
  { origin := origin
    header := header
    justification := none
    post_digests := []
    body := none
    storage_changes := none
    finalized := false
    post_hash := none
    fork_choice := none }

/-- Embeds `SingletonVerifier::check_header`.  Pops the last digest item off the
header (a mutation that persists on the error paths), then checks the
engine tag, decodes the seal, and verifies the signature against the
hash of the now-unsealed header.  Returns the seal (or the error string
of the source) together with the header as left mutated. -/
def check_header (verify : Hash → Sig → Bool) (hashHeader : Header → Hash)
    (header : Header) : Except String Sig × Header :=
  match header.digest.getLast? with
  | none => (Except.error "Unsealed header", header)
  | some item =>
    let header' : Header := { header with digest := header.digest.dropLast }
    match item with
    | DigestItem.other _ => (Except.error "Unsealed header", header')
    | DigestItem.seal id payload =>
      if id = SINGLETON_ENGINE_ID then
        match decodeSig payload with
        | none => (Except.error "Header with invalid seal", header')
        | some sl =>
          let pre_hash := hashHeader header'
          if verify pre_hash sl then (Except.ok sl, header')
          else (Except.error "Invalid seal signature.", header')
      else
        (Except.error "Header seal for wrong engine", header')

/-- Embeds `SingletonVerifier::verify`: hash the sealed header, strip and check
the seal via `check_header`, and on success build the import request
with the seal re-attached as a post-digest, the post-seal hash, the
supplied justification and body, and longest-chain fork choice. -/
def verifier_verify (verify : Hash → Sig → Bool) (hashHeader : Header → Hash)
    (origin : BlockOrigin) (header : Header)
    (justification : Option (List Nat)) (body : Option (List (List Nat))) :
    Except String BlockImportParams :=
  let hash := hashHeader header
  match check_header verify hashHeader header with
  | (Except.error e, _) => Except.error e
  | (Except.ok sl, header') =>
    Except.ok
      { BlockImportParams.new origin header' with
        body := body
        post_digests := [DigestItem.seal SINGLETON_ENGINE_ID (encodeSig sl)]
        post_hash := some hash
        justification := justification
        finalized := false
        fork_choice := some ForkChoiceStrategy.LongestChain }

/-- Embeds `SingletonBlockImport::import_block`, up to the delegation: computes
the request handed to the inner import.  `none` models the panic of the
`expect("header has seal; must have post hash; qed.")` — a decodable
justification on a request without a post hash aborts the process.
`verify` is verification under the finality-authority public key. -/
def singleton_import_block (verify : Hash → Sig → Bool)
    (block : BlockImportParams) : Option BlockImportParams :=
  let justification := block.justification.bind (fun j => decodeSig j)
  let block := { block with justification := none }
  match justification with
  | none => some block
  | some justification =>
    match block.post_hash with
    | none => none
    | some hash =>
      if verify hash justification then
        some { block with
               justification := some (encodeSig justification)
               finalized := true }
      else
        some block

/-- The decorated import: mutate the request as `import_block` does, then
delegate to the inner import and propagate its result verbatim.
`none` is the panic case of `singleton_import_block`. -/
def decorated_import {R : Type} (inner : BlockImportParams → R)
    (verify : Hash → Sig → Bool) (block : BlockImportParams) : Option R :=
  (singleton_import_block verify block).map inner

/-- The gossip payload `SingletonFinalityMessage` (block hash and proof). -/
structure SingletonFinalityMessage where
  block_hash : Hash
  proof : Sig
deriving DecidableEq

/-- SCALE encoding of a finality message: hash bytes then proof bytes. -/
def encodeFinalityMessage (m : SingletonFinalityMessage) : List Nat :=
  m.block_hash.val ++ m.proof.val

/-- SCALE decoding of a finality message: the hash field, then the proof
from the remaining bytes; trailing bytes are ignored. -/
def decodeFinalityMessage (b : List Nat) : Option SingletonFinalityMessage :=
  match decodeHash b with
  | none => none
  | some h =>
    match decodeSig (b.drop HASH_LEN) with
    | none => none
    | some s => some { block_hash := h, proof := s }

/-- A notification delivered by the gossip engine for the topic. -/
structure TopicNotification where
  message : List Nat
  sender : Option Nat
deriving DecidableEq

/-- Observable actions of the finality-gadget listener; `finalizeCall`
records an invocation of `client.finalize_block(hash, justification,
notify)` on the ledger collaborator (its own success or failure is the
collaborator's, and a failure only adds a further warning log). -/
inductive GadgetEffect where
  | logDecodeFailed
  | logInfoFrom (peer : Nat)
  | finalizeCall (h : Hash) (justification : List Nat) (notify : Bool)
  | logVerifyFailed
deriving DecidableEq

/-- One step of the listener in `start_singleton_finality_gadget`: decode
the notification as a `SingletonFinalityMessage` (failure → warn and
drop), optionally log the sender, then verify the proof against the
message's block hash under the finality-authority key; valid → finalize
that hash with the re-encoded proof, invalid → warn and drop. -/
def consumerStep (verify : Hash → Sig → Bool) (n : TopicNotification) :
    List GadgetEffect :=
  match decodeFinalityMessage n.message with
  | none => [GadgetEffect.logDecodeFailed]
  | some m =>
    (match n.sender with
     | some peer => [GadgetEffect.logInfoFrom peer]
     | none => []) ++
    (if verify m.block_hash m.proof then
       [GadgetEffect.finalizeCall m.block_hash (encodeSig m.proof) true]
     else
       [GadgetEffect.logVerifyFailed])

/-- The listener over a stream of notifications: each is processed as an
independent step; the effects accumulate in order. -/
def consumerRun (verify : Hash → Sig → Bool)
    (msgs : List TopicNotification) : List GadgetEffect :=
  msgs.flatMap (consumerStep verify)

/-- A block-import notification from the ledger collaborator. -/
structure ImportNotification where
  hash : Hash
  is_new_best : Bool
deriving DecidableEq

/-- Observable actions of the finality-gadget producer. -/
inductive ProducerEffect where
  | gossipMessage (topic : Hash) (payload : List Nat) (force : Bool)
  | finalizeCall (h : Hash) (justification : List Nat) (notify : Bool)
deriving DecidableEq

/-- One step of `finality_authority` in `start_singleton_finality_gadget`:
holders of the finality key react to a new-best import notification by
signing its hash, flooding the resulting `SingletonFinalityMessage` on
the fixed topic, and finalizing the same hash locally with the encoded
proof; any other notification is ignored.  `sign` is signing with the
finality-authority private key, `topic` the fixed gossip topic. -/
def producerStep (sign : Hash → Sig) (topic : Hash)
    (n : ImportNotification) : List ProducerEffect :=
  if n.is_new_best then
    let proof := sign n.hash
    let proof_encoded := encodeSig proof
    let message : SingletonFinalityMessage :=
      { block_hash := n.hash, proof := proof }
    [ProducerEffect.gossipMessage topic (encodeFinalityMessage message) true,
     ProducerEffect.finalizeCall n.hash proof_encoded true]
  else
    []

/-- Embeds `seal_block` in `start_singleton_block_author`: sign the header hash
with the block-authority key, push the seal digest, take the post-seal
hash, then pop the seal back off.  Returns the post hash, the popped
seal and the header as left after the round trip. -/
def seal_block (sign : Hash → Sig) (hashHeader : Header → Hash)
    (header : Header) : Hash × DigestItem × Header :=
  let hash := hashHeader header
  let sealItem := DigestItem.seal SINGLETON_ENGINE_ID (encodeSig (sign hash))
  let header' : Header := { header with digest := header.digest ++ [sealItem] }
  let post_hash := hashHeader header'
  let header'' : Header := { header' with digest := header'.digest.dropLast }
  (post_hash, sealItem, header'')

/-- Observable actions of one tick of the authoring loop. -/
inductive AuthorEffect where
  | logSkipSync
  | proposeAttempt
  | importBlockCall (p : BlockImportParams)
deriving DecidableEq

/-- One tick (`author_block`) of `start_singleton_block_author`: check the
sync oracle — a positive answer is only logged, never gates — then
attempt the proposal (`propose_block`, whose interaction with the
chain-selection and proposer collaborators is abstracted into its
result), and on success seal the proposed header and submit an import
request with origin `Own`, the seal as post-digest, the body, the
proposal's storage changes, the post-seal hash and longest-chain fork
choice.  A proposal failure ends the tick with its error. -/
def author_block (sign : Hash → Sig) (hashHeader : Header → Hash)
    (is_major_syncing : Bool)
    (propose_result : Except String (Header × List (List Nat))) :
    List AuthorEffect :=
  (if is_major_syncing then [AuthorEffect.logSkipSync] else []) ++
  [AuthorEffect.proposeAttempt] ++
  (match propose_result with
   | Except.error _ => []
   | Except.ok (header, body) =>
     let r := seal_block sign hashHeader header
     [AuthorEffect.importBlockCall
       { BlockImportParams.new BlockOrigin.Own r.2.2 with
         post_digests := [r.2.1]
         body := some body
         storage_changes := some ()
         post_hash := some r.1
         fork_choice := some ForkChoiceStrategy.LongestChain }])

/-- Decoding the canonical encoding of a signature returns it unchanged. -/
theorem decodeSig_encodeSig (s : Sig) : decodeSig (encodeSig s) = some s := by
  have hl : SIG_LEN ≤ (encodeSig s).length := le_of_eq s.property.symm
  rw [decodeSig, dif_pos hl]
  congr 1
  apply Subtype.ext
  simp only [encodeSig]
  exact List.take_of_length_le (le_of_eq s.property)

/-- C1: on an import request whose justification bytes decode to a
justification verifying against the post-seal hash under the
finality-authority key, the decorated import delegates the request with
the justification replaced by its canonical re-encoding and the
finalized flag set; when the decoded signature does not verify, the
delegated request keeps the finalized flag unset and the import is
still delegated to the inner import (succeeding with its result)
rather than rejected. -/
theorem c1_import_justification_verification {R : Type}
    (inner : BlockImportParams → R) (verify : Hash → Sig → Bool)
    (block : BlockImportParams) (bytes : List Nat) (sig : Sig) (h : Hash)
    (hj : block.justification = some bytes)
    (hdec : decodeSig bytes = some sig)
    (hph : block.post_hash = some h) :
    (verify h sig = true →
      singleton_import_block verify block =
        some { block with justification := some (encodeSig sig),
                          finalized := true } ∧
      decorated_import inner verify block =
        some (inner { block with justification := some (encodeSig sig),
                                 finalized := true })) ∧
    (verify h sig = false → block.finalized = false →
      ∃ p, singleton_import_block verify block = some p ∧
        p.finalized = false ∧
        decorated_import inner verify block = some (inner p)) := by
  obtain ⟨o, hd, j, pd, bod, sc, fin, ph, fc⟩ := block
  simp only [BlockImportParams.justification] at hj
  simp only [BlockImportParams.post_hash] at hph
  subst hj hph
  constructor
  · intro hv
    simp [singleton_import_block, decorated_import, hdec, hv]
  · intro hv hfin
    simp only [BlockImportParams.finalized] at hfin
    subst hfin
    refine ⟨{ origin := o, header := hd, justification := none,
              post_digests := pd, body := bod, storage_changes := sc,
              finalized := false, post_hash := some h, fork_choice := fc },
            ?_, rfl, ?_⟩
    · simp [singleton_import_block, hdec, hv]
    · simp [decorated_import, singleton_import_block, hdec, hv]

/-- A concrete 32-byte hash for witnesses. -/
def wHash : Hash := ⟨List.replicate HASH_LEN 0, by decide⟩

/-- A concrete toy verification function for witnesses: a signature is
valid for a hash exactly when it is the hash's bytes doubled. -/
def wVerify : Hash → Sig → Bool := fun h s => decide (s.val = h.val ++ h.val)

/-- The signature `wVerify` accepts for `wHash`. -/
def wSig : Sig := ⟨wHash.val ++ wHash.val, by decide⟩

/-- A signature `wVerify` rejects for `wHash`. -/
def wBadSig : Sig := ⟨List.replicate SIG_LEN 1, by decide⟩

/-- A concrete import request carrying a decodable, valid justification. -/
def wBlock : BlockImportParams :=
  { origin := BlockOrigin.NetworkBroadcast
    header := { base := 0, digest := [] }
    justification := some (encodeSig wSig)
    post_digests := []
    body := none
    storage_changes := none
    finalized := false
    post_hash := some wHash
    fork_choice := none }

/-- The same request with a justification whose signature is invalid. -/
def wBlockBad : BlockImportParams :=
  { wBlock with justification := some (encodeSig wBadSig) }

/-- Witness for C1: both branches at concrete inputs. -/
theorem c1_witness :
    singleton_import_block wVerify wBlock =
      some { wBlock with justification := some (encodeSig wSig),
                         finalized := true } ∧
    (∃ p, singleton_import_block wVerify wBlockBad = some p ∧
      p.finalized = false ∧
      decorated_import id wVerify wBlockBad = some (id p)) :=
  ⟨((c1_import_justification_verification id wVerify wBlock (encodeSig wSig)
      wSig wHash rfl (decodeSig_encodeSig wSig) rfl).1 (by decide)).1,
   (c1_import_justification_verification id wVerify wBlockBad
      (encodeSig wBadSig) wBadSig wHash rfl (decodeSig_encodeSig wBadSig)
      rfl).2 (by decide) rfl⟩

/-- C6: an import request whose justification bytes do not decode as a
finality justification is treated as carrying no justification: the
request is still delegated to the inner import with the finalized flag
unset and the justification cleared, and the inner result is
propagated verbatim. -/
theorem c6_undecodable_justification_is_no_justification {R : Type}
    (inner : BlockImportParams → R) (verify : Hash → Sig → Bool)
    (block : BlockImportParams) (bytes : List Nat)
    (hj : block.justification = some bytes)
    (hdec : decodeSig bytes = none)
    (hfin : block.finalized = false) :
    singleton_import_block verify block =
      some { block with justification := none } ∧
    ({ block with justification := none } : BlockImportParams).finalized
      = false ∧
    decorated_import inner verify block =
      some (inner { block with justification := none }) := by
  obtain ⟨o, hd, j, pd, bod, sc, fin, ph, fc⟩ := block
  simp only [BlockImportParams.justification] at hj
  simp only [BlockImportParams.finalized] at hfin
  subst hj hfin
  refine ⟨?_, rfl, ?_⟩
  · simp [singleton_import_block, hdec]
  · simp [decorated_import, singleton_import_block, hdec]

/-- A request carrying undecodable justification bytes (too short to be
a signature). -/
def wBlockUndec : BlockImportParams :=
  { wBlock with justification := some [1, 2, 3] }

/-- Witness for C6 at a concrete undecodable justification. -/
theorem c6_witness :
    singleton_import_block wVerify wBlockUndec =
      some { wBlockUndec with justification := none } ∧
    ({ wBlockUndec with justification := none } :
        BlockImportParams).finalized = false ∧
    decorated_import id wVerify wBlockUndec =
      some (id { wBlockUndec with justification := none }) :=
  c6_undecodable_justification_is_no_justification id wVerify wBlockUndec
    [1, 2, 3] rfl (by decide) rfl

/-- C9: an import request whose justification bytes decode successfully
but which carries no post-seal hash makes the decorated import panic
(the `expect` on `post_hash`), modelled as the `none` result; absence
of the panic needs the precondition that decodable justifications only
arrive on requests with a post hash. -/
theorem c9_decodable_justification_without_post_hash_panics
    (verify : Hash → Sig → Bool) (block : BlockImportParams)
    (bytes : List Nat) (sig : Sig)
    (hj : block.justification = some bytes)
    (hdec : decodeSig bytes = some sig)
    (hph : block.post_hash = none) :
    singleton_import_block verify block = none := by
  obtain ⟨o, hd, j, pd, bod, sc, fin, ph, fc⟩ := block
  simp only [BlockImportParams.justification] at hj
  simp only [BlockImportParams.post_hash] at hph
  subst hj hph
  simp [singleton_import_block, hdec]

/-- A request with a decodable justification but no post hash. -/
def wBlockNoPostHash : BlockImportParams :=
  { wBlock with post_hash := none }

/-- Witness for C9 at a concrete input. -/
theorem c9_witness :
    singleton_import_block wVerify wBlockNoPostHash = none :=
  c9_decodable_justification_without_post_hash_panics wVerify
    wBlockNoPostHash (encodeSig wSig) wSig rfl
    (decodeSig_encodeSig wSig) rfl

/-- C10: whenever the justification handling fails — the bytes do not
decode, or they decode but the signature does not verify against the
post-seal hash — the request delegated to the inner import carries no
justification at all: the original bytes were taken out and never put
back. -/
theorem c10_failed_justification_never_forwarded
    (verify : Hash → Sig → Bool) (block : BlockImportParams)
    (bytes : List Nat) (p : BlockImportParams)
    (hj : block.justification = some bytes)
    (hfail : decodeSig bytes = none ∨
      ∃ sig h, decodeSig bytes = some sig ∧ block.post_hash = some h ∧
        verify h sig = false)
    (hp : singleton_import_block verify block = some p) :
    p.justification = none := by
  obtain ⟨o, hd, j, pd, bod, sc, fin, ph, fc⟩ := block
  simp only [BlockImportParams.justification] at hj
  subst hj
  rcases hfail with hdec | ⟨sig, h, hdec, hph, hv⟩
  · simp [singleton_import_block, hdec] at hp
    subst hp
    rfl
  · simp only [BlockImportParams.post_hash] at hph
    subst hph
    simp [singleton_import_block, hdec, hv] at hp
    subst hp
    rfl

/-- Witness for C10 at a concrete invalid-signature justification. -/
theorem c10_witness :
    ({ wBlockBad with justification := none } :
        BlockImportParams).justification = none :=
  c10_failed_justification_never_forwarded wVerify wBlockBad
    (encodeSig wBadSig) { wBlockBad with justification := none } rfl
    (Or.inr ⟨wBadSig, wHash, decodeSig_encodeSig wBadSig, rfl, by decide⟩)
    (by decide)

/-- A constant header-hash function for witnesses. -/
def wHashHeader : Header → Hash := fun _ => wHash

/-- A header correctly sealed for the witness crypto. -/
def wSealedHeader : Header :=
  { base := 7,
    digest := [DigestItem.other [9],
               DigestItem.seal SINGLETON_ENGINE_ID (encodeSig wSig)] }

/-- C2: a header whose last digest item is a correctly tagged seal whose
signature verifies under the block-authority key against the pre-seal
hash is accepted by the verifier; the produced import request carries a
post-digest seal that re-decodes to the identical signature, a post
hash equal to the hash of the sealed header, a longest-chain fork
choice, and the original origin, justification and body. -/
theorem c2_verifier_accepts_valid_seal
    (verify : Hash → Sig → Bool) (hashHeader : Header → Hash)
    (origin : BlockOrigin) (header : Header) (s : Sig)
    (justification : Option (List Nat)) (body : Option (List (List Nat)))
    (hlast : header.digest.getLast? =
      some (DigestItem.seal SINGLETON_ENGINE_ID (encodeSig s)))
    (hv : verify (hashHeader { header with
            digest := header.digest.dropLast }) s = true) :
    ∃ p, verifier_verify verify hashHeader origin header justification body
        = Except.ok p ∧
      (∃ payload,
        p.post_digests = [DigestItem.seal SINGLETON_ENGINE_ID payload] ∧
        decodeSig payload = some s) ∧
      p.post_hash = some (hashHeader header) ∧
      p.fork_choice = some ForkChoiceStrategy.LongestChain ∧
      p.origin = origin ∧ p.justification = justification ∧
      p.body = body ∧ p.finalized = false := by
  obtain ⟨b, d⟩ := header
  simp only [Header.digest] at hlast
  refine ⟨{ origin := origin
            header := { base := b, digest := d.dropLast }
            justification := justification
            post_digests :=
              [DigestItem.seal SINGLETON_ENGINE_ID (encodeSig s)]
            body := body
            storage_changes := none
            finalized := false
            post_hash := some (hashHeader { base := b, digest := d })
            fork_choice := some ForkChoiceStrategy.LongestChain },
          ?_, ⟨encodeSig s, rfl, decodeSig_encodeSig s⟩,
          rfl, rfl, rfl, rfl, rfl, rfl⟩
  simp only [verifier_verify, check_header, Header.digest] at *
  rw [hlast]
  simp [decodeSig_encodeSig, hv, BlockImportParams.new]

/-- Witness for C2 at a concrete sealed header. -/
theorem c2_witness :
    ∃ p, verifier_verify wVerify wHashHeader BlockOrigin.NetworkBroadcast
        wSealedHeader (some [5]) (some [[6]]) = Except.ok p ∧
      (∃ payload,
        p.post_digests = [DigestItem.seal SINGLETON_ENGINE_ID payload] ∧
        decodeSig payload = some wSig) ∧
      p.post_hash = some (wHashHeader wSealedHeader) ∧
      p.fork_choice = some ForkChoiceStrategy.LongestChain ∧
      p.origin = BlockOrigin.NetworkBroadcast ∧
      p.justification = some [5] ∧
      p.body = some [[6]] ∧ p.finalized = false :=
  c2_verifier_accepts_valid_seal wVerify wHashHeader
    BlockOrigin.NetworkBroadcast wSealedHeader wSig (some [5]) (some [[6]])
    rfl (by decide)

/-- A header whose last digest item is a seal tagged for another engine. -/
def wWrongEngineHeader : Header :=
  { base := 7, digest := [DigestItem.seal [0, 0, 0, 0] (encodeSig wSig)] }

/-- C4 counterexample: at a concrete header sealed for another engine,
`check_header` does fail with the wrong-engine outcome, but the
wrong-engine seal digest item does not remain on the header — the item
was popped off before the engine tag was inspected, so the digest left
behind is empty. -/
theorem c4_counterexample :
    (check_header wVerify wHashHeader wWrongEngineHeader).1 =
      Except.error "Header seal for wrong engine" ∧
    ¬ DigestItem.seal [0, 0, 0, 0] (encodeSig wSig) ∈
        (check_header wVerify wHashHeader wWrongEngineHeader).2.digest := by
  constructor
  · rfl
  · intro hmem
    simp [check_header, wWrongEngineHeader, SINGLETON_ENGINE_ID] at hmem

/-- C4 (amended): a header whose last digest item is a seal tagged for a
different engine makes the verifier fail with the distinguishable
wrong-engine outcome; the header's other fields are untouched, but the
wrong-engine seal digest item has been popped off the header rather
than left in place. -/
theorem c4_wrong_engine_seal_popped
    (verify : Hash → Sig → Bool) (hashHeader : Header → Hash)
    (header : Header) (eid payload : List Nat)
    (hlast : header.digest.getLast? = some (DigestItem.seal eid payload))
    (hid : eid ≠ SINGLETON_ENGINE_ID) :
    check_header verify hashHeader header =
      (Except.error "Header seal for wrong engine",
       { header with digest := header.digest.dropLast }) := by
  obtain ⟨b, d⟩ := header
  simp only [Header.digest] at hlast
  simp only [check_header, Header.digest]
  rw [hlast]
  simp [hid]

/-- Witness for C4's amended statement at the concrete header. -/
theorem c4_witness :
    check_header wVerify wHashHeader wWrongEngineHeader =
      (Except.error "Header seal for wrong engine",
       { wWrongEngineHeader with
         digest := wWrongEngineHeader.digest.dropLast }) :=
  c4_wrong_engine_seal_popped wVerify wHashHeader wWrongEngineHeader
    [0, 0, 0, 0] (encodeSig wSig) rfl (by decide)

/-- C5: the verifier's four failure outcomes are produced exactly as
described — no seal digest (or a non-seal last digest item) gives
"Unsealed header", a wrong engine tag gives "Header seal for wrong
engine", an undecodable correctly-tagged seal gives "Header with
invalid seal", and a decodable seal whose signature does not verify
gives "Invalid seal signature." — and the four strings are pairwise
distinct. -/
theorem c5_failure_outcomes_distinguishable
    (verify : Hash → Sig → Bool) (hashHeader : Header → Hash) :
    (∀ header : Header,
      (header.digest.getLast? = none ∨
       ∃ pl, header.digest.getLast? = some (DigestItem.other pl)) →
      (check_header verify hashHeader header).1 =
        Except.error "Unsealed header") ∧
    (∀ (header : Header) (eid pl : List Nat),
      header.digest.getLast? = some (DigestItem.seal eid pl) →
      eid ≠ SINGLETON_ENGINE_ID →
      (check_header verify hashHeader header).1 =
        Except.error "Header seal for wrong engine") ∧
    (∀ (header : Header) (pl : List Nat),
      header.digest.getLast? =
        some (DigestItem.seal SINGLETON_ENGINE_ID pl) →
      decodeSig pl = none →
      (check_header verify hashHeader header).1 =
        Except.error "Header with invalid seal") ∧
    (∀ (header : Header) (pl : List Nat) (s : Sig),
      header.digest.getLast? =
        some (DigestItem.seal SINGLETON_ENGINE_ID pl) →
      decodeSig pl = some s →
      verify (hashHeader { header with
        digest := header.digest.dropLast }) s = false →
      (check_header verify hashHeader header).1 =
        Except.error "Invalid seal signature.") ∧
    (("Unsealed header" : String) ≠ "Header seal for wrong engine" ∧
     ("Unsealed header" : String) ≠ "Header with invalid seal" ∧
     ("Unsealed header" : String) ≠ "Invalid seal signature." ∧
     ("Header seal for wrong engine" : String) ≠ "Header with invalid seal" ∧
     ("Header seal for wrong engine" : String) ≠ "Invalid seal signature." ∧
     ("Header with invalid seal" : String) ≠ "Invalid seal signature.") := by
  refine ⟨?_, ?_, ?_, ?_, by decide, by decide, by decide,
          by decide, by decide, by decide⟩
  · rintro ⟨b, d⟩ (hlast | ⟨pl, hlast⟩) <;>
      · simp only [Header.digest] at hlast
        simp only [check_header, Header.digest]
        rw [hlast]
  · rintro ⟨b, d⟩ eid pl hlast hid
    simp only [Header.digest] at hlast
    simp only [check_header, Header.digest]
    rw [hlast]
    simp [hid]
  · rintro ⟨b, d⟩ pl hlast hdec
    simp only [Header.digest] at hlast
    simp only [check_header, Header.digest]
    rw [hlast]
    simp [hdec]
  · rintro ⟨b, d⟩ pl s hlast hdec hv
    simp only [Header.digest] at hlast
    simp only [check_header, Header.digest] at *
    rw [hlast]
    simp [hdec, hv]

/-- An undecodable correctly-tagged seal (payload shorter than 64
bytes). -/
def wShortSealHeader : Header :=
  { base := 7, digest := [DigestItem.seal SINGLETON_ENGINE_ID [1, 2]] }

/-- A correctly-tagged seal whose signature fails verification. -/
def wBadSigHeader : Header :=
  { base := 7,
    digest := [DigestItem.seal SINGLETON_ENGINE_ID (encodeSig wBadSig)] }

/-- Witness for C5: all four failure outcomes at concrete headers. -/
theorem c5_witness :
    (check_header wVerify wHashHeader { base := 7, digest := [] }).1 =
      Except.error "Unsealed header" ∧
    (check_header wVerify wHashHeader wWrongEngineHeader).1 =
      Except.error "Header seal for wrong engine" ∧
    (check_header wVerify wHashHeader wShortSealHeader).1 =
      Except.error "Header with invalid seal" ∧
    (check_header wVerify wHashHeader wBadSigHeader).1 =
      Except.error "Invalid seal signature." :=
  ⟨(c5_failure_outcomes_distinguishable wVerify wHashHeader).1
      { base := 7, digest := [] } (Or.inl rfl),
   (c5_failure_outcomes_distinguishable wVerify wHashHeader).2.1
      wWrongEngineHeader [0, 0, 0, 0] (encodeSig wSig) rfl (by decide),
   (c5_failure_outcomes_distinguishable wVerify wHashHeader).2.2.1
      wShortSealHeader [1, 2] rfl (by decide),
   (c5_failure_outcomes_distinguishable wVerify wHashHeader).2.2.2.1
      wBadSigHeader (encodeSig wBadSig) wBadSig rfl
      (decodeSig_encodeSig wBadSig) (by decide)⟩

/-- C3: over every step of the consumer's message processing, a finalize
call only appears among the effects of a message that decodes as a
finality message whose proof verifies against its block hash under
the finality-authority key, and it finalizes exactly that hash with the
re-encoded proof; a message that fails decoding or verification is
logged and dropped with no finalize call among its effects. -/
theorem c3_consumer_never_finalizes_unverified
    (verify : Hash → Sig → Bool) (msgs : List TopicNotification) :
    (∀ (h : Hash) (j : List Nat) (nt : Bool),
      GadgetEffect.finalizeCall h j nt ∈ consumerRun verify msgs →
      ∃ n ∈ msgs, ∃ m, decodeFinalityMessage n.message = some m ∧
        m.block_hash = h ∧ verify h m.proof = true ∧
        j = encodeSig m.proof ∧ nt = true) ∧
    (∀ n ∈ msgs,
      (decodeFinalityMessage n.message = none →
        consumerStep verify n = [GadgetEffect.logDecodeFailed]) ∧
      (∀ m, decodeFinalityMessage n.message = some m →
        verify m.block_hash m.proof = false →
        (∀ (h : Hash) (j : List Nat) (nt : Bool),
          GadgetEffect.finalizeCall h j nt ∉ consumerStep verify n) ∧
        GadgetEffect.logVerifyFailed ∈ consumerStep verify n)) := by
  constructor
  · intro h j nt hmem
    rw [consumerRun, List.mem_flatMap] at hmem
    obtain ⟨n, hn, hstep⟩ := hmem
    refine ⟨n, hn, ?_⟩
    cases hdec : decodeFinalityMessage n.message with
    | none =>
      simp [consumerStep, hdec] at hstep
    | some m =>
      cases hv : verify m.block_hash m.proof with
      | false =>
        cases hs : n.sender <;> simp [consumerStep, hdec, hs, hv] at hstep
      | true =>
        cases hs : n.sender <;>
          · simp [consumerStep, hdec, hs, hv] at hstep
            obtain ⟨h1, h2, h3⟩ := hstep
            subst h1 h2 h3
            exact ⟨m, rfl, rfl, hv, rfl, rfl⟩
  · intro n _
    refine ⟨fun hdec => by rw [consumerStep, hdec], ?_⟩
    intro m hdec hv
    constructor
    · intro h j nt hmem
      cases hs : n.sender <;> simp [consumerStep, hdec, hs, hv] at hmem
    · cases hs : n.sender <;> simp [consumerStep, hdec, hs, hv]

/-- Decoding a hash field from bytes that start with a hash's 32 bytes
recovers that hash. -/
theorem decodeHash_append (h : Hash) (rest : List Nat) :
    decodeHash (h.val ++ rest) = some h := by
  have hl : HASH_LEN ≤ (h.val ++ rest).length := by
    rw [List.length_append, h.property]
    omega
  rw [decodeHash, dif_pos hl]
  congr 1
  apply Subtype.ext
  simp only
  exact List.take_left' h.property

/-- Decoding a signature from bytes that start with a signature's 64
bytes recovers that signature. -/
theorem decodeSig_append (s : Sig) (rest : List Nat) :
    decodeSig (s.val ++ rest) = some s := by
  have hl : SIG_LEN ≤ (s.val ++ rest).length := by
    rw [List.length_append, s.property]
    omega
  rw [decodeSig, dif_pos hl]
  congr 1
  apply Subtype.ext
  simp only
  exact List.take_left' s.property

/-- A finality message survives the encode/decode round trip. -/
theorem decodeFinalityMessage_encodeFinalityMessage
    (m : SingletonFinalityMessage) :
    decodeFinalityMessage (encodeFinalityMessage m) = some m := by
  have hdrop : (encodeFinalityMessage m).drop HASH_LEN = m.proof.val := by
    rw [encodeFinalityMessage]
    exact List.drop_left' m.block_hash.property
  simp only [decodeFinalityMessage, encodeFinalityMessage, decodeHash_append]
  rw [← encodeFinalityMessage, hdrop,
      show m.proof.val = encodeSig m.proof from rfl, decodeSig_encodeSig]

/-- A finality message whose signature does not verify, as gossiped. -/
def wCorruptMessage : List Nat :=
  encodeFinalityMessage { block_hash := wHash, proof := wBadSig }

/-- A notification delivering the corrupt message. -/
def wCorruptNotification : TopicNotification :=
  { message := wCorruptMessage, sender := none }

/-- Witness for C3: at the concrete corrupt message, the finalize call is
absent from the step's effects and the verify-failure log is present. -/
theorem c3_witness :
    GadgetEffect.finalizeCall wHash (encodeSig wBadSig) true ∉
      consumerStep wVerify wCorruptNotification ∧
    GadgetEffect.logVerifyFailed ∈
      consumerStep wVerify wCorruptNotification :=
  have r := ((c3_consumer_never_finalizes_unverified wVerify
      [wCorruptNotification]).2 wCorruptNotification (by simp)).2
      { block_hash := wHash, proof := wBadSig }
      (decodeFinalityMessage_encodeFinalityMessage
        { block_hash := wHash, proof := wBadSig }) (by decide)
  ⟨r.1 wHash (encodeSig wBadSig) true, r.2⟩

/-- C7: the sync oracle's answer is advisory only in the authoring loop —
the proposal attempt happens on every tick, a syncing tick merely adds
the skip log in front of exactly the trace of a non-syncing tick. -/
theorem c7_sync_status_advisory (sign : Hash → Sig)
    (hashHeader : Header → Hash) (is_major_syncing : Bool)
    (propose_result : Except String (Header × List (List Nat))) :
    AuthorEffect.proposeAttempt ∈
      author_block sign hashHeader is_major_syncing propose_result ∧
    (is_major_syncing = true →
      AuthorEffect.logSkipSync ∈
        author_block sign hashHeader is_major_syncing propose_result) ∧
    author_block sign hashHeader true propose_result =
      AuthorEffect.logSkipSync ::
        author_block sign hashHeader false propose_result := by
  refine ⟨?_, ?_, ?_⟩
  · cases is_major_syncing <;> simp [author_block]
  · intro hb
    subst hb
    simp [author_block]
  · simp [author_block]

/-- A constant signing function for witnesses. -/
def wSign : Hash → Sig := fun _ => wSig

/-- Witness for C7 at a concrete syncing tick. -/
theorem c7_witness :
    AuthorEffect.proposeAttempt ∈
      author_block wSign wHashHeader true (Except.error "e") ∧
    AuthorEffect.logSkipSync ∈
      author_block wSign wHashHeader true (Except.error "e") :=
  have r := c7_sync_status_advisory wSign wHashHeader true
    (Except.error "e")
  ⟨r.1, r.2.1 rfl⟩

/-- C8: when the gadget holds the finality key, a new-best import
notification makes the producer sign the notified hash, flood on the
fixed topic a payload that decodes to the finality message built from
that hash and that signature, and finalize the same hash with the
encoding of the same justification; a notification that is not a new
best produces no effect at all. -/
theorem c8_producer_signs_floods_finalizes (sign : Hash → Sig)
    (topic : Hash) (n : ImportNotification) :
    (n.is_new_best = true →
      producerStep sign topic n =
        [ProducerEffect.gossipMessage topic
           (encodeFinalityMessage
             { block_hash := n.hash, proof := sign n.hash }) true,
         ProducerEffect.finalizeCall n.hash (encodeSig (sign n.hash))
           true] ∧
      decodeFinalityMessage
          (encodeFinalityMessage
            { block_hash := n.hash, proof := sign n.hash }) =
        some { block_hash := n.hash, proof := sign n.hash }) ∧
    (n.is_new_best = false → producerStep sign topic n = []) := by
  constructor
  · intro hb
    exact ⟨by simp [producerStep, hb],
           decodeFinalityMessage_encodeFinalityMessage _⟩
  · intro hb
    simp [producerStep, hb]

/-- Witness for C8: both notification kinds at concrete inputs. -/
theorem c8_witness :
    producerStep wSign wHash { hash := wHash, is_new_best := true } =
      [ProducerEffect.gossipMessage wHash
         (encodeFinalityMessage { block_hash := wHash, proof := wSig })
         true,
       ProducerEffect.finalizeCall wHash (encodeSig wSig) true] ∧
    producerStep wSign wHash { hash := wHash, is_new_best := false }
      = [] :=
  ⟨((c8_producer_signs_floods_finalizes wSign wHash
      { hash := wHash, is_new_best := true }).1 rfl).1,
   (c8_producer_signs_floods_finalizes wSign wHash
      { hash := wHash, is_new_best := false }).2 rfl⟩
